import Mathlib

/-!
# Verification of the barforge-app core against its specification

Shallow embedding of the barforge-app repository (Rust) into Lean 4.

Rust strings are embedded as `List Char` (all characters relevant to the
claims are ASCII, so byte positions and char positions coincide); machine
integers are embedded as `Nat`/`Int`; `Result<T, E>` as `Except E T`;
`Option<T>` as `Option T`.  Asynchronous functions performing I/O are
embedded as pure functions over the explicit outcomes of their I/O calls
(the read/fetched/spawned results are passed in as arguments).
-/

namespace Barforge

/-! ## List-of-char string helpers -/

/-- `beginsWith needle hay`: `hay` starts with `needle`
(embedding of byte-slice prefix test used by substring search). -/
def beginsWith : List Char → List Char → Bool
  | [], _ => true
  | _ :: _, [] => false
  | n :: ns, h :: hs => n = h && beginsWith ns hs

/-- `containsSub hay needle`: `needle` occurs as a contiguous substring of
`hay` (embedding of Rust `str::contains` with a literal pattern). -/
def containsSub (hay needle : List Char) : Bool :=
  match hay with
  | [] => needle.isEmpty
  | _ :: rest => beginsWith needle hay || containsSub rest needle

/-- `splitAtFirstAt value`: embedding of `value.find('@')` followed by the
slicing `&value[..at_pos]` / `&value[at_pos + 1..]`: returns the part
before the first `'@'` and the part after it, or `none` when no `'@'`
occurs. -/
def splitAtFirstAt : List Char → Option (List Char × List Char)
  | [] => none
  | c :: rest =>
    if c = '@' then some ([], rest)
    else (splitAtFirstAt rest).map fun p => (c :: p.1, p.2)

/-! ## `ModuleUuid` (src/domain/module.rs) -/

/-- Embedding of `ModuleUuidError` (src/domain/module.rs, lines 6–18). -/
inductive ModuleUuidError where
  | MissingAtSymbol
  | EmptyName
  | EmptyNamespace
  | InvalidCharacter
  | PathTraversalAttempt
deriving DecidableEq, Repr

/-- Embedding of `ModuleUuid` (src/domain/module.rs, lines 20–24).
The Rust field `namespace` is a Lean keyword, so it is named `nspace`. -/
structure ModuleUuid where
  name : List Char
  nspace : List Char
deriving DecidableEq, Repr

/-- Embedding of `impl fmt::Display for ModuleUuid` (src/domain/module.rs,
lines 79–83): `"{name}@{namespace}"`. -/
def ModuleUuid.toChars (u : ModuleUuid) : List Char :=
  u.name ++ '@' :: u.nspace

/-- Embedding of `ModuleUuid::try_from(&str)` (src/domain/module.rs,
lines 45–77), check for check in source order. -/
def ModuleUuid.tryFrom (value : List Char) : Except ModuleUuidError ModuleUuid :=
  match splitAtFirstAt value with
  | none => .error .MissingAtSymbol
  | some (name, nspace) =>
    if name = [] then .error .EmptyName
    else if nspace = [] then .error .EmptyNamespace
    else if name = ['.', '.'] || nspace = ['.', '.']
        || containsSub value ['.', '.', '/'] || containsSub value ['.', '.', '\\'] then
      .error .PathTraversalAttempt
    else if value.contains '/' || value.contains '\\' || value.contains (Char.ofNat 0) then
      .error .InvalidCharacter
    else
      .ok { name := name, nspace := nspace }







/-! ## JSON documents (serde_json::Value)

The waybar config mutator (src/services/waybar_config.rs) parses the config
text permissively (`jsonc_parser::parse_to_serde_value`), mutates the parsed
`serde_json::Value`, and re-serializes it.  The embedding models the parsed
document directly: a config is a `Json` value, objects are association
lists of fields (serde_json's map, abstracted from its key ordering), and
the parse/serialize text adapters around the mutation are not modeled.
JSON numbers are embedded as `Int` (no claim observes a numeric value). -/

inductive Json where
  | null
  | bool (b : Bool)
  | num (n : Int)
  | str (s : String)
  | arr (elems : List Json)
  | obj (fields : List (String × Json))

/-- Embedding of the comparison `v.as_str() == Some(module_name)` /
`arr.contains(&Value::String(module_name))`: a JSON value equals the string
`s` exactly when it is a string node with content `s`. -/
def Json.eqStr : Json → String → Bool
  | .str t, s => t = s
  | _, _ => false

/-- Field lookup in a JSON object (serde_json `Map::get`). -/
def lookupField (k : String) : List (String × Json) → Option Json
  | [] => none
  | (k', v) :: rest => if k' = k then some v else lookupField k rest

/-- Field update-or-insert in a JSON object (the net effect of serde_json
`Map::entry(k).or_insert_with(..)` followed by in-place mutation of the
entry's value): replaces the value at `k` in place, appending the binding
when `k` is absent. -/
def setField (k : String) (v : Json) : List (String × Json) → List (String × Json)
  | [] => [(k, v)]
  | (k', v') :: rest => if k' = k then (k, v) :: rest else (k', v') :: setField k v rest

/-- In-place modification of the value at field `k` when present
(serde_json `Map::get_mut`); absent keys are untouched. -/
def updateField (k : String) (f : Json → Json) : List (String × Json) → List (String × Json)
  | [] => []
  | (k', v) :: rest => if k' = k then (k', f v) :: rest else (k', v) :: updateField k f rest

/-! ## `BarSection` (src/domain/bar_section.rs) -/

/-- Embedding of `BarSection` (src/domain/bar_section.rs). -/
inductive BarSection where
  | Left
  | Center
  | Right
deriving DecidableEq, Repr

/-- Embedding of `BarSection::array_key` (src/domain/bar_section.rs). -/
def BarSection.array_key : BarSection → String
  | .Left => "modules-left"
  | .Center => "modules-center"
  | .Right => "modules-right"

/-! ## Config mutator (src/services/waybar_config.rs) -/

/-- Embedding of `add_module` (src/services/waybar_config.rs, lines 46–76),
at the level of the parsed JSON document: takes the entry for the section's
array key (inserting an empty array if absent), fails if that entry is not
an array or the document is not an object, and pushes the module name onto
the array unless it is already contained. -/
def add_module (config : Json) (module_name : String) (sec : BarSection) :
    Except String Json :=
  let array_key := sec.array_key
  match config with
  | .obj fields =>
    match (lookupField array_key fields).getD (.arr []) with
    | .arr xs =>
      let modList := if xs.any (fun v => v.eqStr module_name) then xs
        else xs ++ [.str module_name]
      .ok (.obj (setField array_key (.arr modList) fields))
    | _ => .error (array_key ++ " is not an array")
  | _ => .error "Waybar config is not a JSON object"

/-- The three section array keys iterated by `remove_module`
(src/services/waybar_config.rs, line 88). -/
def sectionKeys : List String := ["modules-left", "modules-center", "modules-right"]

/-- Embedding of the per-key body of `remove_module`'s loop
(src/services/waybar_config.rs, lines 89–98): when the value is an array,
retain the entries that are not the string `module_name`; any non-array
value is left untouched. -/
def removeRetain (module_name : String) : Json → Json
  | .arr xs => .arr (xs.filter fun v => !(v.eqStr module_name))
  | v => v

/-- The loop of `remove_module` (src/services/waybar_config.rs,
lines 88–99): apply `removeRetain` to each of the three section keys in
turn. -/
def removeFields (module_name : String) (fields : List (String × Json)) :
    List (String × Json) :=
  sectionKeys.foldl (fun fs key => updateField key (removeRetain module_name) fs) fields

/-- Embedding of `remove_module` (src/services/waybar_config.rs,
lines 78–103), at the level of the parsed JSON document: for each of the
three section keys, filter the module name out of the key's array when
present; fails only when the document is not an object. -/
def remove_module (config : Json) (module_name : String) : Except String Json :=
  match config with
  | .obj fields => .ok (.obj (removeFields module_name fields))
  | _ => .error "Waybar config is not a JSON object"

/-! ## Reload signal (src/services/waybar_config.rs, lines 105–118) -/

/-- Exit status of a finished external process: `code = none` models
termination by signal (Rust `ExitStatus::code()` returning `None`). -/
structure ExitStatus where
  code : Option Int
deriving DecidableEq, Repr

/-- Embedding of Rust `ExitStatus::success()`: exit code zero. -/
def ExitStatus.success (s : ExitStatus) : Bool := s.code = some 0

/-- Outcome of the `pkill` process invocation awaited by `reload_waybar`:
either the process ran to an exit status, or spawning/waiting failed with
an I/O error. -/
inductive SpawnOutcome where
  | spawned (status : ExitStatus)
  | ioError (msg : String)

/-- Embedding of `reload_waybar` (src/services/waybar_config.rs,
lines 105–118) over the outcome of the `pkill -SIGUSR2 waybar` call:
spawn failure is an error; exit status 0 (success) or 1 is `Ok`;
any other exit status is an error.  (The Rust error messages interpolate
the status display; the message text is abbreviated here.) -/
def reload_waybar : SpawnOutcome → Except String Unit
  | .ioError e => .error ("Failed to send reload signal: " ++ e)
  | .spawned status =>
    if status.success || status.code = some 1 then .ok ()
    else .error "pkill failed with status"

/-- `pkill`(1) exits with status 1 exactly when no processes matched, i.e.
the run in which `pkill` itself worked but no bar process was signalled
(statuses 2 and 3 are invocation/internal failures of `pkill` itself,
which cannot arise from the fixed argument list `-SIGUSR2 waybar`). -/
def noProcessMatched (s : ExitStatus) : Prop := s.code = some 1

/-! ## Semantic versions (the `semver` crate, as used by `ModuleVersion`)

`ModuleVersion` (src/domain/module.rs, lines 85–95) wraps `semver::Version`
and derives its order from it.  This section embeds the `semver` crate's
(v1.x) parser and `Ord` implementation: parsing follows the SemVer grammar
(`major.minor.patch[-pre][+build]`, numeric components without leading
zeros and bounded by `u64`), and comparison proceeds through major, minor,
patch, pre-release, and finally build metadata as a tiebreak. -/

/-- Numeric value of a digit string. -/
def digitsToNat (ds : List Char) : Nat :=
  ds.foldl (fun n c => n * 10 + (c.toNat - '0'.toNat)) 0

/-- Parse a SemVer numeric component (`semver` crate: non-empty digits, no
leading zeros, value must fit in `u64`), returning it and the rest. -/
def parseNumPart (l : List Char) : Option (Nat × List Char) :=
  let ds := l.takeWhile Char.isDigit
  let rest := l.drop ds.length
  if ds.isEmpty then none
  else if decide (ds.length > 1) && ds.head? = some '0' then none
  else if digitsToNat ds < 2 ^ 64 then some (digitsToNat ds, rest)
  else none

/-- Consume a literal `'.'`. -/
def expectDot : List Char → Option (List Char)
  | '.' :: rest => some rest
  | _ => none

/-- SemVer identifier characters: ASCII alphanumerics and hyphen. -/
def isIdentChar (c : Char) : Bool := c.isAlphanum || c = '-'

/-- Split on `'.'` (Rust `str::split('.')`: the empty string yields one
empty piece). -/
def splitOnDot : List Char → List (List Char)
  | [] => [[]]
  | c :: rest =>
    if c = '.' then [] :: splitOnDot rest
    else
      match splitOnDot rest with
      | [] => [[c]]
      | x :: xs => (c :: x) :: xs

/-- A valid pre-release identifier: non-empty, identifier characters only,
and no leading zero when fully numeric (`semver::Prerelease::new`). -/
def validPreIdent (i : List Char) : Bool :=
  !i.isEmpty && i.all isIdentChar &&
    (if i.all Char.isDigit then !(decide (i.length > 1) && i.head? = some '0') else true)

/-- A valid build-metadata identifier: non-empty, identifier characters
only; leading zeros are allowed (`semver::BuildMetadata::new`). -/
def validBuildIdent (i : List Char) : Bool :=
  !i.isEmpty && i.all isIdentChar

/-- Embedding of `semver::Version`: the pre-release and build-metadata
parts are kept as their raw text (dot-separated identifiers), as in the
crate. -/
structure Version where
  major : Nat
  minor : Nat
  patch : Nat
  pre : List Char
  build : List Char
deriving DecidableEq, Repr

/-- Embedding of `semver::Version::parse`. -/
def semverParse (l : List Char) : Option Version := do
  let (major, l₁) ← parseNumPart l
  let l₂ ← expectDot l₁
  let (minor, l₃) ← parseNumPart l₂
  let l₄ ← expectDot l₃
  let (patch, l₅) ← parseNumPart l₄
  match l₅ with
  | [] => some ⟨major, minor, patch, [], []⟩
  | '-' :: rest =>
    let pre := rest.takeWhile (· != '+')
    let rest₂ := rest.drop pre.length
    if (splitOnDot pre).all validPreIdent then
      match rest₂ with
      | [] => some ⟨major, minor, patch, pre, []⟩
      | '+' :: b =>
        if (splitOnDot b).all validBuildIdent then some ⟨major, minor, patch, pre, b⟩
        else none
      | _ => none
    else none
  | '+' :: b =>
    if (splitOnDot b).all validBuildIdent then some ⟨major, minor, patch, [], b⟩
    else none
  | _ => none

/-- Lexicographic comparison of char lists (Rust `str` ordering; all
identifier characters are ASCII, so byte and char order coincide). -/
def strCmp : List Char → List Char → Ordering
  | [], [] => .eq
  | [], _ :: _ => .lt
  | _ :: _, [] => .gt
  | a :: as, b :: bs => (compare a b).then (strCmp as bs)

/-- Identifier-by-identifier pre-release comparison
(`impl Ord for semver::Prerelease`): a shorter identifier list is smaller;
numeric identifiers sort below alphanumeric ones and are compared
numerically (by length, then lexically — valid since they carry no leading
zeros). -/
def preIdentsCmp : List (List Char) → List (List Char) → Ordering
  | [], [] => .eq
  | [], _ :: _ => .lt
  | _ :: _, [] => .gt
  | x :: xs, y :: ys =>
    let o := match x.all Char.isDigit, y.all Char.isDigit with
      | true, true => (compare x.length y.length).then (strCmp x y)
      | true, false => .lt
      | false, true => .gt
      | false, false => strCmp x y
    o.then (preIdentsCmp xs ys)

/-- Pre-release comparison (`impl Ord for semver::Prerelease`): an empty
pre-release (a full release) compares greater than any non-empty one. -/
def preCmp (a b : List Char) : Ordering :=
  if a.isEmpty then (if b.isEmpty then .eq else .gt)
  else if b.isEmpty then .lt
  else preIdentsCmp (splitOnDot a) (splitOnDot b)

/-- Leading zeros stripped from a (numeric) identifier. -/
def trimZeros (x : List Char) : List Char := x.dropWhile (· = '0')

/-- Identifier-by-identifier build-metadata comparison
(`impl Ord for semver::BuildMetadata`): numeric identifiers (which may
carry leading zeros here) compare by numeric value first and then by raw
length, so that `0 < 00 < 1 < 01 < 001 < 2`. -/
def buildIdentsCmp : List (List Char) → List (List Char) → Ordering
  | [], [] => .eq
  | [], _ :: _ => .lt
  | _ :: _, [] => .gt
  | x :: xs, y :: ys =>
    let o := match x.all Char.isDigit, y.all Char.isDigit with
      | true, true =>
        ((compare (trimZeros x).length (trimZeros y).length).then
          (strCmp (trimZeros x) (trimZeros y))).then (compare x.length y.length)
      | true, false => .lt
      | false, true => .gt
      | false, false => strCmp x y
    o.then (buildIdentsCmp xs ys)

/-- Build-metadata comparison (`impl Ord for semver::BuildMetadata`). -/
def buildCmp (a b : List Char) : Ordering :=
  buildIdentsCmp (splitOnDot a) (splitOnDot b)

/-- Embedding of `impl Ord for semver::Version`: major, minor, patch,
pre-release, and finally build metadata. -/
def Version.cmp (v w : Version) : Ordering :=
  (compare v.major w.major).then ((compare v.minor w.minor).then
    ((compare v.patch w.patch).then ((preCmp v.pre w.pre).then
      (buildCmp v.build w.build))))

/-- Semantic-version *precedence*, written from the specification's words
("total ordering per semver precedence rules"): SemVer precedence compares
major, minor, patch numerically, then the pre-release by the identifier
rules, and ignores build metadata entirely.  This is the spec-side
definition that the code's order (`Version.cmp`) is compared against. -/
def semverPrecedence (v w : Version) : Ordering :=
  (compare v.major w.major).then ((compare v.minor w.minor).then
    ((compare v.patch w.patch).then (preCmp v.pre w.pre)))

/-- Embedding of `ModuleVersion` (src/domain/module.rs, line 87): a
newtype over `semver::Version`. -/
structure ModuleVersion where
  ver : Version
deriving DecidableEq, Repr

/-- Embedding of `ModuleVersion::try_from(&str)` (src/domain/module.rs,
lines 89–95): delegate to `semver::Version::parse`.  (The rich
`semver::Error` payload is abbreviated to a fixed message; no claim
observes the message text.) -/
def ModuleVersion.tryFrom (s : List Char) : Except String ModuleVersion :=
  match semverParse s with
  | some v => .ok ⟨v⟩
  | none => .error "unexpected character while parsing version"

/-- The order on `ModuleVersion`: the derived `Ord` of the newtype
delegates to `semver::Version`'s order. -/
def ModuleVersion.cmp (a b : ModuleVersion) : Ordering := a.ver.cmp b.ver









/-! ## RFC 3339 timestamps (chrono, as used by `parse_optional_timestamp`)

`src/api.rs` parses `last_updated` with
`chrono::DateTime::parse_from_rfc3339` and converts the result to UTC.
The embedding validates the RFC 3339 grammar
(`YYYY-MM-DDTHH:MM:SS[.frac](Z|±HH:MM)`, with calendar-valid fields) and
keeps the parsed components; the UTC conversion only changes the
representation of the instant and no claim observes the value. -/

/-- Read exactly `n` digits as a number. -/
def readFixedDigits (n : Nat) (l : List Char) : Option (Nat × List Char) :=
  let ds := l.take n
  if ds.length = n && ds.all Char.isDigit then some (digitsToNat ds, l.drop n)
  else none

/-- Consume one expected character. -/
def expectChar (c : Char) : List Char → Option (List Char)
  | x :: rest => if x = c then some rest else none
  | [] => none

def isLeapYear (y : Nat) : Bool := (y % 4 = 0 && y % 100 != 0) || y % 400 = 0

def daysInMonth (y m : Nat) : Nat :=
  match m with
  | 2 => if isLeapYear y then 29 else 28
  | 4 => 30
  | 6 => 30
  | 9 => 30
  | 11 => 30
  | _ => 31

/-- A validated RFC 3339 timestamp, kept as its components plus the
UTC offset in minutes. -/
structure Rfc3339 where
  year : Nat
  month : Nat
  day : Nat
  hour : Nat
  minute : Nat
  second : Nat
  frac : List Char
  offMinutes : Int
deriving DecidableEq, Repr

/-- Optional fractional-second part: a `'.'` must be followed by at least
one digit. -/
def fracPart : List Char → Option (List Char × List Char)
  | '.' :: r =>
    let ds := r.takeWhile Char.isDigit
    if ds.isEmpty then none else some (ds, r.drop ds.length)
  | l => some ([], l)

/-- Numeric UTC offset or `Z`/`z`, consuming the whole remainder. -/
def parseOffset (l : List Char) : Option Int :=
  match l with
  | ['Z'] => some 0
  | ['z'] => some 0
  | c :: rest =>
    if c = '+' || c = '-' then do
      let (hh, r) ← readFixedDigits 2 rest
      let r ← expectChar ':' r
      let (mm, r) ← readFixedDigits 2 r
      if r.isEmpty && decide (hh ≤ 23) && decide (mm ≤ 59) then
        some (if c = '-' then -(hh * 60 + mm : Int) else (hh * 60 + mm : Int))
      else none
    else none
  | [] => none

/-- Embedding of `chrono::DateTime::parse_from_rfc3339` as a validator of
the RFC 3339 grammar (`T`/`Z` case-insensitively, second `60` admitted as
a leap second, calendar-valid month/day). -/
def rfc3339Parse (l : List Char) : Option Rfc3339 := do
  let (year, l) ← readFixedDigits 4 l
  let l ← expectChar '-' l
  let (month, l) ← readFixedDigits 2 l
  let l ← expectChar '-' l
  let (day, l) ← readFixedDigits 2 l
  let l ← match l with
    | 'T' :: r => some r
    | 't' :: r => some r
    | _ => none
  let (hour, l) ← readFixedDigits 2 l
  let l ← expectChar ':' l
  let (minute, l) ← readFixedDigits 2 l
  let l ← expectChar ':' l
  let (second, l) ← readFixedDigits 2 l
  let (frac, l) ← fracPart l
  let off ← parseOffset l
  if 1 ≤ month && month ≤ 12 && 1 ≤ day && day ≤ daysInMonth year month
      && hour ≤ 23 && minute ≤ 59 && second ≤ 60 then
    some ⟨year, month, day, hour, minute, second, frac, off⟩
  else none





/-! ## Module categories

`src/domain/category.rs` is not among the provided sources.  Modelled from
the spec: §3 fixes the closed enum (System, Hardware, Network, Audio,
Power, Time, Workspace, Window, Tray, Weather, Productivity, Media,
Custom), and the total match in `src/api.rs` (lines 128–144) confirms the
variant list on both the API and the domain side. -/

inductive ModuleCategory where
  | System | Hardware | Network | Audio | Power | Time | Workspace
  | Window | Tray | Weather | Productivity | Media | Custom
deriving DecidableEq, Repr

/-- The generated API client's category enum
(`barforge_registry_client::models::ModuleCategory`); same closed variant
list, per the total match in `src/api.rs`. -/
inductive ApiModuleCategory where
  | System | Hardware | Network | Audio | Power | Time | Workspace
  | Window | Tray | Weather | Productivity | Media | Custom
deriving DecidableEq, Repr

/-- Embedding of `map_module_category` (src/api.rs, lines 128–144). -/
def map_module_category : ApiModuleCategory → ModuleCategory
  | .System => .System
  | .Hardware => .Hardware
  | .Network => .Network
  | .Audio => .Audio
  | .Power => .Power
  | .Time => .Time
  | .Workspace => .Workspace
  | .Window => .Window
  | .Tray => .Tray
  | .Weather => .Weather
  | .Productivity => .Productivity
  | .Media => .Media
  | .Custom => .Custom

/-! ## External API payload types
(`barforge_registry_client::models`, field shapes as constructed and
destructured in `src/api.rs` and its tests; the "double Option" fields
model the generated client's nullable optional fields). -/

structure ApiCategoryInfo where
  id : Option (Option String)
  name : String
  icon : String

structure ApiRegistryModule where
  uuid : String
  name : String
  description : String
  author : String
  category : ApiModuleCategory
  icon : Option (Option String)
  screenshot : Option (Option String)
  repo_url : String
  downloads : Int
  version : Option (Option String)
  last_updated : Option (Option String)
  rating : Option (Option Float)
  verified_author : Bool
  tags : List String
  checksum : Option (Option String)
  license : Option (Option String)

structure ApiRegistryIndex where
  version : Int
  modules : List ApiRegistryModule
  categories : List (String × ApiCategoryInfo)

structure ApiReviewUser where
  username : String
  avatar_url : Option (Option String)

structure ApiReview where
  id : Int
  rating : Int
  title : Option (Option String)
  body : Option (Option String)
  helpful_count : Int
  user : ApiReviewUser
  created_at : String
  updated_at : Option (Option String)

structure ApiReviewsResponse where
  version : Int
  reviews : List ApiReview
  total : Int

/-! ## Internal model types (src/domain/registry.rs; review types) -/

/-- Embedding of `CategoryInfo` (src/domain/registry.rs). -/
structure CategoryInfo where
  id : Option String
  name : String
  icon : String

/-- Embedding of `RegistryModule` (src/domain/registry.rs). -/
structure RegistryModule where
  uuid : ModuleUuid
  name : String
  description : String
  author : String
  category : ModuleCategory
  icon : Option String
  screenshot : Option String
  repo_url : String
  downloads : Nat
  version : Option ModuleVersion
  last_updated : Option Rfc3339
  rating : Option Float
  verified_author : Bool
  tags : List String
  checksum : Option String
  license : Option String

/-- Embedding of `RegistryIndex` (src/domain/registry.rs); the category
`HashMap` is embedded as an association list. -/
structure RegistryIndex where
  version : Nat
  modules : List RegistryModule
  categories : List (String × CategoryInfo)

/-- `src/domain/review.rs` is not among the provided sources.  Modelled
from the spec and the field usage in `src/api.rs`: a review user carries a
username and an optional avatar reference. -/
structure ReviewUser where
  username : String
  avatar_url : Option String

/-- `src/domain/review.rs` is not among the provided sources.  Modelled
from the spec and the field usage in `src/api.rs`. -/
structure Review where
  id : Nat
  rating : Nat
  title : Option String
  body : Option String
  helpful_count : Nat
  user : ReviewUser
  created_at : String
  updated_at : Option String

/-- `src/domain/review.rs` is not among the provided sources.  Modelled
from the spec ("A 404 on reviews is treated as 'no reviews' (empty
result)"): the reviews list and the total count. -/
structure ReviewsResponse where
  reviews : List Review
  total : Nat

/-- Modelled from the spec: the derived `Default` of `ReviewsResponse`,
the "empty result" — no reviews and total zero. -/
def reviewsDefault : ReviewsResponse := { reviews := [], total := 0 }

/-! ## Payload mapping (src/api.rs) -/

/-- Display strings of `ModuleUuidError` (thiserror attributes,
src/domain/module.rs, lines 6–18). -/
def ModuleUuidError.display : ModuleUuidError → String
  | .MissingAtSymbol => "missing '@' separator in UUID"
  | .EmptyName => "empty name in UUID"
  | .EmptyNamespace => "empty namespace in UUID"
  | .InvalidCharacter => "invalid character in UUID (path separator or null)"
  | .PathTraversalAttempt => "path traversal attempt detected in UUID"

/-- Embedding of `parse_u64` (src/api.rs, lines 190–195). -/
def parse_u64 (value : Int) (field : String) : Except String Nat :=
  if value < 0 then .error (field ++ " must be non-negative") else .ok value.toNat

/-- Embedding of `parse_u32` (src/api.rs, lines 197–202). -/
def parse_u32 (value : Int) (field : String) : Except String Nat :=
  if value < 0 then .error (field ++ " must be non-negative") else .ok value.toNat

/-- Embedding of `parse_usize` (src/api.rs, lines 204–209). -/
def parse_usize (value : Int) (field : String) : Except String Nat :=
  if value < 0 then .error (field ++ " must be non-negative") else .ok value.toNat

/-- Embedding of `parse_module_uuid` (src/api.rs, lines 169–171). -/
def parse_module_uuid (value : String) : Except String ModuleUuid :=
  (ModuleUuid.tryFrom value.toList).mapError
    (fun e => "invalid module uuid: " ++ e.display)

/-- Embedding of `parse_module_version` (src/api.rs, lines 173–175). -/
def parse_module_version (value : String) : Except String ModuleVersion :=
  (ModuleVersion.tryFrom value.toList).mapError
    (fun e => "invalid module version: " ++ e)

/-- Embedding of `parse_optional_timestamp` (src/api.rs, lines 177–188).
(The chrono error display is abbreviated; no claim observes the text.) -/
def parse_optional_timestamp (value : Option String) : Except String (Option Rfc3339) :=
  match value with
  | none => .ok none
  | some v =>
    match rfc3339Parse v.toList with
    | some t => .ok (some t)
    | none => .error "invalid last_updated timestamp: input is malformed"

/-- Embedding of iterator `collect::<Result<Vec<_>, _>>()`: map each
element, stopping at the first error. -/
def collectResults : List α → (α → Except ε β) → Except ε (List β)
  | [], _ => .ok []
  | x :: xs, f => do
    let y ← f x
    let ys ← collectResults xs f
    .ok (y :: ys)

/-- Embedding of `map_category_info` (src/api.rs, lines 120–126). -/
def map_category_info (api : ApiCategoryInfo) : CategoryInfo :=
  { id := api.id.join, name := api.name, icon := api.icon }

/-- Embedding of `map_registry_module` (src/api.rs, lines 38–82). -/
def map_registry_module (api : ApiRegistryModule) : Except String RegistryModule := do
  let uuid ← parse_module_uuid api.uuid
  let version ← match api.version.join with
    | none => pure none
    | some s => (parse_module_version s).map some
  let last_updated ← parse_optional_timestamp api.last_updated.join
  let downloads ← parse_u64 api.downloads "downloads"
  let category := map_module_category api.category
  .ok { uuid := uuid
        name := api.name
        description := api.description
        author := api.author
        category := category
        icon := api.icon.join
        screenshot := api.screenshot.join
        repo_url := api.repo_url
        downloads := downloads
        version := version
        last_updated := last_updated
        rating := api.rating.join
        verified_author := api.verified_author
        tags := api.tags
        checksum := api.checksum.join
        license := api.license.join }

/-- Embedding of `map_registry_index` (src/api.rs, lines 18–36). -/
def map_registry_index (api : ApiRegistryIndex) : Except String RegistryIndex := do
  let modules ← collectResults api.modules map_registry_module
  let categories := api.categories.map (fun p => (p.1, map_category_info p.2))
  let version ← parse_u32 api.version "registry version"
  .ok { version := version, modules := modules, categories := categories }

/-- Embedding of `map_review_user` (src/api.rs, lines 162–167). -/
def map_review_user (api : ApiReviewUser) : ReviewUser :=
  { username := api.username, avatar_url := api.avatar_url.join }

/-- Embedding of `map_review` (src/api.rs, lines 146–160);
`u8::try_from(api.rating)` succeeds exactly on 0..=255. -/
def map_review (api : ApiReview) : Except String Review := do
  let rating ← if 0 ≤ api.rating && api.rating ≤ 255 then .ok api.rating.toNat
    else Except.error "review rating must be between 0 and 255"
  let id ← parse_u64 api.id "review id"
  let helpful_count ← parse_u64 api.helpful_count "helpful count"
  .ok { id := id
        rating := rating
        title := api.title.join
        body := api.body.join
        helpful_count := helpful_count
        user := map_review_user api.user
        created_at := api.created_at
        updated_at := api.updated_at.join }

/-- Embedding of `map_reviews_response` (src/api.rs, lines 84–95). -/
def map_reviews_response (api : ApiReviewsResponse) : Except String ReviewsResponse := do
  let reviews ← collectResults api.reviews map_review
  let total ← parse_usize api.total "reviews total"
  .ok { reviews := reviews, total := total }

/-! ## Registry tasks (src/tasks/registry.rs)

The asynchronous tasks are embedded as pure functions over the outcomes of
their awaited I/O calls. -/

/-- Outcome of a generated-client API call
(`barforge_registry_client::apis::Error`): a decoded success payload, an
HTTP response with a non-success status (`Error::ResponseError`), or any
other failure (transport, serialization, I/O), rendered to its display
string. -/
inductive ApiCallResult (α : Type) where
  | ok (value : α)
  | responseError (status : Nat)
  | otherError (msg : String)

/-- The combined effects of `fetch_registry_async`: the returned result,
whether the network was contacted, and the index persisted to the cache
file (when the write succeeded). -/
structure FetchOutcome where
  result : Except String RegistryIndex
  networkUsed : Bool
  cacheWritten : Option RegistryIndex

/-- Embedding of `fetch_registry_async` (src/tasks/registry.rs,
lines 23–56).  `cache` is the combined outcome of reading the cache file
and deserializing it as a `RegistryIndex` (`some` when both succeeded);
`net` is the outcome of `api_v1_index_get` rendered as in the source;
`persistOk` is the outcome of the best-effort cache write
(`create_dir_all` + `write`), whose failure is only logged. -/
def fetch_registry (cache : Option RegistryIndex)
    (net : Except String ApiRegistryIndex) (persistOk : Bool) : FetchOutcome :=
  match cache with
  | some index => { result := .ok index, networkUsed := false, cacheWritten := none }
  | none =>
    match net with
    | .error e =>
      { result := .error ("Network error: " ++ e), networkUsed := true,
        cacheWritten := none }
    | .ok apiIndex =>
      match map_registry_index apiIndex with
      | .error e =>
        { result := .error ("Invalid registry data: " ++ e), networkUsed := true,
          cacheWritten := none }
      | .ok index =>
        { result := .ok index, networkUsed := true,
          cacheWritten := if persistOk then some index else none }

/-- Embedding of `fetch_module_reviews_async` (src/tasks/registry.rs,
lines 131–145): a decoded payload is mapped (mapping failure is an
error); *any* `ResponseError` — whatever its status — yields the default
(empty) response; any other failure is a network error. -/
def fetch_module_reviews (uuid : ModuleUuid)
    (call : ApiCallResult ApiReviewsResponse) : Except String ReviewsResponse :=
  match call with
  | .ok api => (map_reviews_response api).mapError (fun e => "Failed to parse reviews: " ++ e)
  | .responseError _ => .ok reviewsDefault
  | .otherError e => .error ("Network error: " ++ e)

/-! ## Serde deserialization of `ModuleUuid` (src/domain/module.rs, lines 35–43) -/

/-- Embedding of `impl Deserialize for ModuleUuid` (src/domain/module.rs,
lines 35–43) over a decoded JSON value: `String::deserialize` succeeds only
on a JSON string, and the string is then validated by `ModuleUuid::try_from`
(the typed error is rendered through `serde::de::Error::custom`). -/
def ModuleUuid.deserialize (v : Json) : Except String ModuleUuid :=
  match v with
  | .str s => (ModuleUuid.tryFrom s.toList).mapError (fun e => e.display)
  | _ => .error "invalid type: expected a string"

/-! ## Observers and sample data used by the verification statements -/

/-- Success test for `Except` (Rust `Result::is_ok`). -/
def isOk : Except ε α → Bool
  | .ok _ => true
  | .error _ => false

/-- The uuid invariant stated by the spec (§3): non-empty name and
namespace, neither equal to `..`, and the formatted `name@namespace`
string free of path separators, NUL, and traversal substrings. -/
def uuidInvariant (u : ModuleUuid) : Prop :=
  u.name ≠ [] ∧ u.nspace ≠ [] ∧
  u.name ≠ ['.', '.'] ∧ u.nspace ≠ ['.', '.'] ∧
  u.toChars.contains '/' = false ∧
  u.toChars.contains '\\' = false ∧
  u.toChars.contains (Char.ofNat 0) = false ∧
  containsSub u.toChars ("../".toList) = false ∧
  containsSub u.toChars ("..\\".toList) = false

/-- Number of occurrences of the string `s` among the elements of a JSON
array. -/
def countIn (xs : List Json) (s : String) : Nat :=
  (xs.filter (fun v => v.eqStr s)).length

/-- Number of occurrences of the string `n` in the array at field `key` of
a config document (zero when the document is not an object or the field is
not an array). -/
def sectionCount (c : Json) (key n : String) : Nat :=
  match c with
  | .obj fields =>
    match lookupField key fields with
    | some (.arr xs) => countIn xs n
    | _ => 0
  | _ => 0

/-- The sample config of spec §8:
`{"modules-left": ["sway/workspaces"], "modules-center": ["clock"],
"modules-right": ["battery","network"]}`. -/
def sampleFields : List (String × Json) :=
  [("modules-left", .arr [.str "sway/workspaces"]),
   ("modules-center", .arr [.str "clock"]),
   ("modules-right", .arr [.str "battery", .str "network"])]

/-- The sample config after `add_module(_, "custom/weather", Left)`. -/
def sampleAddedFields : List (String × Json) :=
  [("modules-left", .arr [.str "sway/workspaces", .str "custom/weather"]),
   ("modules-center", .arr [.str "clock"]),
   ("modules-right", .arr [.str "battery", .str "network"])]

/-- A config whose left section already contains `"clock"` twice. -/
def dupFields : List (String × Json) :=
  [("modules-left", .arr [.str "clock", .str "clock"])]

/-- A syntactically valid API module entry (mirrors the test fixture in
src/api.rs) whose `downloads` count is negative. -/
def badApiModule : ApiRegistryModule :=
  { uuid := "weather@barforge"
    name := "Weather"
    description := "Weather module"
    author := "barforge"
    category := .Weather
    icon := some (some "weather-icon")
    screenshot := none
    repo_url := "https://github.com/barforge/weather"
    downloads := -5
    version := some (some "1.2.3")
    last_updated := some (some "2025-01-01T00:00:00Z")
    rating := none
    verified_author := true
    tags := ["weather", "forecast"]
    checksum := some (some "abc123")
    license := some (some "MIT") }

/-- An index payload containing the single bad entry `badApiModule`. -/
def badApiIndex : ApiRegistryIndex :=
  { version := 1, modules := [badApiModule], categories := [] }

/-- A well-formed, empty index payload. -/
def emptyApiIndex : ApiRegistryIndex :=
  { version := 1, modules := [], categories := [] }

/-- A concrete module uuid, `weather@barforge`. -/
def sampleUuid : ModuleUuid := { name := "weather".toList, nspace := "barforge".toList }

/-! # Helper lemmas -/

theorem isOk_bind_false (x : Except ε α) (f : α → Except ε β) (h : isOk x = false) :
    isOk (x >>= f) = false := by
  cases x with
  | ok a => simp [isOk] at h
  | error e => rfl

theorem orderingThenAssoc (a b c : Ordering) : (a.then b).then c = a.then (b.then c) := by
  cases a <;> rfl

theorem splitAtFirstAt_none_iff (l : List Char) :
    splitAtFirstAt l = none ↔ l.contains '@' = false := by
  induction l with
  | nil => simp [splitAtFirstAt]
  | cons c rest ih =>
    by_cases hc : c = '@'
    · subst hc
      simp [splitAtFirstAt, List.contains_cons]
    · simp only [splitAtFirstAt, if_neg hc, Option.map_eq_none', ih,
        List.contains_cons, Bool.or_eq_false_iff, beq_eq_false_iff_ne, ne_eq]
      constructor
      · intro h
        exact ⟨fun heq => hc heq.symm, h⟩
      · intro h
        exact h.2

theorem splitAtFirstAt_append (l a b : List Char) (h : splitAtFirstAt l = some (a, b)) :
    l = a ++ '@' :: b := by
  induction l generalizing a b with
  | nil => simp [splitAtFirstAt] at h
  | cons c rest ih =>
    by_cases hc : c = '@'
    · subst hc
      simp only [splitAtFirstAt, if_pos rfl, Option.some_inj, Prod.mk.injEq] at h
      obtain ⟨rfl, rfl⟩ := h
      simp
    · simp only [splitAtFirstAt, if_neg hc, Option.map_eq_some'] at h
      obtain ⟨⟨a', b'⟩, hsplit, heq⟩ := h
      simp only [Prod.mk.injEq] at heq
      obtain ⟨rfl, rfl⟩ := heq
      simp [ih a' b' hsplit]

/-! # C4 — registry load is cache-first -/

/-- C4: `fetch_registry` is cache-first: a successfully read and parsed
cache is returned unchanged with no network request; only on cache
miss/parse failure does it contact the network, map the payload, persist
the mapped index best-effort (a persist failure never reaches the returned
result), and return the mapped index. -/
theorem fetch_registry_cache_first :
    (∀ idx net p, fetch_registry (some idx) net p =
      { result := .ok idx, networkUsed := false, cacheWritten := none }) ∧
    (∀ net p, (fetch_registry none net p).networkUsed = true) ∧
    (∀ e p, fetch_registry none (.error e) p =
      { result := .error ("Network error: " ++ e), networkUsed := true,
        cacheWritten := none }) ∧
    (∀ a e p, map_registry_index a = .error e → fetch_registry none (.ok a) p =
      { result := .error ("Invalid registry data: " ++ e), networkUsed := true,
        cacheWritten := none }) ∧
    (∀ a i p, map_registry_index a = .ok i → fetch_registry none (.ok a) p =
      { result := .ok i, networkUsed := true,
        cacheWritten := if p then some i else none }) ∧
    (∀ net p p', (fetch_registry none net p).result = (fetch_registry none net p').result) := by
  refine ⟨fun idx net p => rfl, ?_, fun e p => rfl, ?_, ?_, ?_⟩
  · intro net p
    cases net with
    | error e => rfl
    | ok a =>
      simp only [fetch_registry]
      cases map_registry_index a <;> rfl
  · intro a e p h
    simp [fetch_registry, h]
  · intro a i p h
    simp [fetch_registry, h]
  · intro net p p'
    cases net with
    | error e => rfl
    | ok a =>
      simp only [fetch_registry]
      cases map_registry_index a <;> rfl

/-- Witness for C4 at concrete inputs: a cached index short-circuits the
network, and on a cache miss the well-formed empty payload is mapped,
returned, and persisted. -/
theorem fetch_registry_cache_first_witness :
    fetch_registry (some { version := 1, modules := [], categories := [] })
        (.error "unreachable") true =
      { result := .ok { version := 1, modules := [], categories := [] },
        networkUsed := false, cacheWritten := none } ∧
    fetch_registry none (.ok emptyApiIndex) true =
      { result := .ok { version := 1, modules := [], categories := [] },
        networkUsed := true,
        cacheWritten := some { version := 1, modules := [], categories := [] } } := by
  constructor
  · exact fetch_registry_cache_first.1 _ _ _
  · exact fetch_registry_cache_first.2.2.2.2.1 emptyApiIndex
      { version := 1, modules := [], categories := [] } true rfl

/-! # C7 — reviews fetch: HTTP error statuses yield the empty result -/

/-- C7 counterexample: the claim says only a 404 yields the empty result
while any other failed fetch surfaces as an error; but a response with
HTTP status 500 also yields the empty reviews result, not an error. -/
theorem fetch_module_reviews_500_counterexample :
    fetch_module_reviews sampleUuid (.responseError 500) = .ok reviewsDefault ∧
    isOk (fetch_module_reviews sampleUuid (.responseError 500)) = true := ⟨rfl, rfl⟩

/-- C7 (amended): a reviews fetch whose HTTP response carries an error
status — 404 or any other — returns the empty reviews result (no reviews,
total zero) rather than an error; only a non-response failure (transport,
decoding, I/O) surfaces as an error. -/
theorem fetch_module_reviews_response_errors :
    (∀ u s, fetch_module_reviews u (.responseError s) = .ok reviewsDefault) ∧
    (∀ u e, isOk (fetch_module_reviews u (.otherError e)) = false) ∧
    reviewsDefault = { reviews := [], total := 0 } :=
  ⟨fun _ _ => rfl, fun _ _ => rfl, rfl⟩

/-! # C8 — reload signal tolerates the absent-process exit status -/

/-- C8: `reload_waybar` treats the `pkill` exit status that signals "no
process matched" (exit status 1, per pkill(1)) as success, accepts a
successful signal delivery (exit status 0), and fails otherwise; an exit
is accepted exactly when its code is 0 or 1, and a spawn failure is an
error. -/
theorem reload_waybar_tolerates_absent_process :
    (∀ st, noProcessMatched st → reload_waybar (.spawned st) = .ok ()) ∧
    (∀ st, reload_waybar (.spawned st) = .ok () ↔ (st.code = some 0 ∨ st.code = some 1)) ∧
    (∀ e, isOk (reload_waybar (.ioError e)) = false) := by
  refine ⟨?_, ?_, fun e => rfl⟩
  · intro st h
    simp [reload_waybar, ExitStatus.success, noProcessMatched] at *
    simp [h]
  · intro st
    simp only [reload_waybar, ExitStatus.success]
    by_cases h0 : st.code = some 0
    · simp [h0]
    · by_cases h1 : st.code = some 1
      · simp [h0, h1]
      · simp [h0, h1]

/-- Witness for C8: the no-process-matched status (exit code 1) at a
concrete value yields success. -/
theorem reload_waybar_tolerates_absent_process_witness :
    reload_waybar (.spawned { code := some 1 }) = .ok () :=
  reload_waybar_tolerates_absent_process.1 { code := some 1 } rfl

/-! # C1 — uuid parsing error cases -/

/-- C1 counterexample: the claim says a string with two or more `'@'`
characters (e.g. `"a@b@c"`) is rejected; but `try_from` splits at the
*first* `'@'`, so `"a@b@c"` parses successfully with name `"a"` and
namespace `"b@c"`. -/
theorem tryFrom_multi_at_counterexample :
    ModuleUuid.tryFrom ("a@b@c".toList) =
      .ok { name := "a".toList, nspace := "b@c".toList } ∧
    isOk (ModuleUuid.tryFrom ("a@b@c".toList)) = true := ⟨rfl, rfl⟩

/-- C1 (amended): parsing splits at the *first* `'@'`: with no `'@'` it
fails with `MissingAtSymbol`; with an empty part before the first `'@'`
it fails with `EmptyName`; with a non-empty part before and an empty part
after the first `'@'` it fails with `EmptyNamespace`.  (A string with two
or more `'@'` characters is not rejected on that account — the second
`'@'` simply becomes part of the namespace.) -/
theorem tryFrom_edge_errors (l : List Char) :
    (l.contains '@' = false → ModuleUuid.tryFrom l = .error .MissingAtSymbol) ∧
    (∀ b, splitAtFirstAt l = some ([], b) → ModuleUuid.tryFrom l = .error .EmptyName) ∧
    (∀ a, splitAtFirstAt l = some (a, []) → a ≠ [] →
      ModuleUuid.tryFrom l = .error .EmptyNamespace) := by
  refine ⟨?_, ?_, ?_⟩
  · intro h
    have hnone : splitAtFirstAt l = none := (splitAtFirstAt_none_iff l).mpr h
    simp [ModuleUuid.tryFrom, hnone]
  · intro b h
    simp [ModuleUuid.tryFrom, h]
  · intro a h ha
    simp [ModuleUuid.tryFrom, h, ha]

/-- Witness for C1 at concrete inputs: the three edge shapes produce the
three typed errors. -/
theorem tryFrom_edge_errors_witness :
    ModuleUuid.tryFrom ("invalid-uuid".toList) = .error .MissingAtSymbol ∧
    ModuleUuid.tryFrom ("@namespace".toList) = .error .EmptyName ∧
    ModuleUuid.tryFrom ("name@".toList) = .error .EmptyNamespace :=
  ⟨(tryFrom_edge_errors _).1 (by decide),
   (tryFrom_edge_errors _).2.1 ("namespace".toList) (by decide),
   (tryFrom_edge_errors _).2.2 ("name".toList) (by decide) (by decide)⟩

/-! # C2 — path-traversal rejection -/

/-- C2 counterexample: the claim says every string containing `"../"`
fails with `PathTraversalAttempt`; but earlier checks run first, so
`"../"` (which has no `'@'`) fails with `MissingAtSymbol` instead. -/
theorem tryFrom_traversal_counterexample :
    ModuleUuid.tryFrom ("../".toList) = .error .MissingAtSymbol ∧
    ModuleUuid.tryFrom ("../".toList) ≠ .error .PathTraversalAttempt := by
  constructor
  · rfl
  · intro h
    have h2 := (show ModuleUuid.tryFrom ("../".toList) =
      .error .MissingAtSymbol from rfl).symm.trans h
    simp at h2

/-- C2 (amended): for a string that passes the earlier checks — it has an
`'@'` with non-empty parts before and after the first `'@'` — containing
`"../"` or `"..\"` anywhere, or having either side of the first `'@'`
equal to `".."`, parsing fails with `PathTraversalAttempt`.  (Strings
caught by the earlier checks fail with `MissingAtSymbol` / `EmptyName` /
`EmptyNamespace` instead, even when they contain a traversal pattern.) -/
theorem tryFrom_path_traversal (l a b : List Char)
    (hsplit : splitAtFirstAt l = some (a, b)) (ha : a ≠ []) (hb : b ≠ [])
    (htrav : a = ['.', '.'] ∨ b = ['.', '.'] ∨
      containsSub l ['.', '.', '/'] = true ∨ containsSub l ['.', '.', '\\'] = true) :
    ModuleUuid.tryFrom l = .error .PathTraversalAttempt := by
  simp only [ModuleUuid.tryFrom, hsplit]
  rcases htrav with h | h | h | h <;> simp [h, ha, hb]

/-- Witness for C2 at a concrete input: `"a@../b"` contains `"../"` and
passes the earlier checks, so it fails with `PathTraversalAttempt`. -/
theorem tryFrom_path_traversal_witness :
    ModuleUuid.tryFrom ("a@../b".toList) = .error .PathTraversalAttempt :=
  tryFrom_path_traversal ("a@../b".toList) ("a".toList) ("../b".toList)
    (by decide) (by decide) (by decide)
    (Or.inr (Or.inr (Or.inl (by decide))))

/-! # C10 — deserialization validates like parsing; uuid invariants -/

/-- C10: every `ModuleUuid` produced by `try_from` satisfies the uuid
invariants; deserialization accepts exactly JSON strings validated by the
same `try_from` (with the same resulting value), so deserialized values
satisfy the invariants as well. -/
theorem uuid_deserialize_validates :
    (∀ l u, ModuleUuid.tryFrom l = .ok u → uuidInvariant u) ∧
    (∀ v u, ModuleUuid.deserialize v = .ok u →
      ∃ s, v = .str s ∧ ModuleUuid.tryFrom s.toList = .ok u) ∧
    (∀ v u, ModuleUuid.deserialize v = .ok u → uuidInvariant u) := by
  have main : ∀ l u, ModuleUuid.tryFrom l = .ok u → uuidInvariant u := by
    intro l u h
    cases hsplit : splitAtFirstAt l with
    | none => simp [ModuleUuid.tryFrom, hsplit] at h
    | some p =>
      obtain ⟨name, ns⟩ := p
      simp only [ModuleUuid.tryFrom, hsplit] at h
      split_ifs at h with h1 h2 h3 h4
      · simp only [Except.ok.injEq] at h
        subst h
        have hl : l = name ++ '@' :: ns := splitAtFirstAt_append _ _ _ hsplit
        simp only [Bool.not_eq_true, Bool.or_eq_false_iff, decide_eq_false_iff_not] at h3 h4
        obtain ⟨⟨⟨hn1, hn2⟩, hc1⟩, hc2⟩ := h3
        obtain ⟨⟨hs1, hs2⟩, hs3⟩ := h4
        refine ⟨h1, h2, hn1, hn2, ?_, ?_, ?_, ?_, ?_⟩ <;>
          simp only [ModuleUuid.toChars, ← hl] <;>
          simp_all
  have deser : ∀ v u, ModuleUuid.deserialize v = .ok u →
      ∃ s, v = .str s ∧ ModuleUuid.tryFrom s.toList = .ok u := by
    intro v u h
    cases v with
    | str s =>
      refine ⟨s, rfl, ?_⟩
      simp only [ModuleUuid.deserialize] at h
      cases htf : ModuleUuid.tryFrom s.toList with
      | error e =>
        rw [htf] at h
        simp [Except.mapError] at h
      | ok w =>
        rw [htf] at h
        simp only [Except.mapError, Except.ok.injEq] at h
        rw [h]
    | null => exact absurd h (by simp [ModuleUuid.deserialize])
    | bool b => exact absurd h (by simp [ModuleUuid.deserialize])
    | num n => exact absurd h (by simp [ModuleUuid.deserialize])
    | arr xs => exact absurd h (by simp [ModuleUuid.deserialize])
    | obj fs => exact absurd h (by simp [ModuleUuid.deserialize])
  refine ⟨main, deser, ?_⟩
  intro v u h
  obtain ⟨s, _, htf⟩ := deser v u h
  exact main _ _ htf

/-- Witness for C10 at a concrete input: deserializing the JSON string
`"weather@barforge"` yields the parsed uuid and it satisfies the
invariants. -/
theorem uuid_deserialize_validates_witness :
    (∃ s, Json.str "weather@barforge" = .str s ∧
      ModuleUuid.tryFrom s.toList = .ok sampleUuid) ∧
    uuidInvariant sampleUuid :=
  ⟨uuid_deserialize_validates.2.1 (.str "weather@barforge") sampleUuid rfl,
   uuid_deserialize_validates.2.2 (.str "weather@barforge") sampleUuid rfl⟩

/-! # C9 — version order versus semver precedence -/

/-- C9 counterexample: the claim says the comparison on `ModuleVersion`
agrees with semver precedence, with build metadata not affecting it; but
`1.0.0+a` and `1.0.0+b` — both successfully parsed, equal in precedence —
compare strictly (`lt`), because the derived order on `semver::Version`
uses build metadata as a final tiebreak. -/
theorem moduleVersion_order_counterexample :
    ModuleVersion.tryFrom ("1.0.0+a".toList) = .ok ⟨⟨1, 0, 0, [], ['a']⟩⟩ ∧
    ModuleVersion.tryFrom ("1.0.0+b".toList) = .ok ⟨⟨1, 0, 0, [], ['b']⟩⟩ ∧
    ModuleVersion.cmp ⟨⟨1, 0, 0, [], ['a']⟩⟩ ⟨⟨1, 0, 0, [], ['b']⟩⟩ = .lt ∧
    semverPrecedence ⟨1, 0, 0, [], ['a']⟩ ⟨1, 0, 0, [], ['b']⟩ = .eq :=
  ⟨rfl, rfl, rfl, rfl⟩

/-- C9 (amended): the total order on `ModuleVersion` is semver precedence
refined by a final build-metadata tiebreak: the comparison equals the
precedence comparison followed (`Ordering.then`) by the build-metadata
comparison; in particular whenever two versions differ in precedence the
comparison agrees with semver precedence exactly. -/
theorem moduleVersion_order_precedence :
    (∀ a b : ModuleVersion, ModuleVersion.cmp a b =
      (semverPrecedence a.ver b.ver).then (buildCmp a.ver.build b.ver.build)) ∧
    (∀ a b : ModuleVersion, semverPrecedence a.ver b.ver ≠ .eq →
      ModuleVersion.cmp a b = semverPrecedence a.ver b.ver) := by
  have key : ∀ a b : ModuleVersion, ModuleVersion.cmp a b =
      (semverPrecedence a.ver b.ver).then (buildCmp a.ver.build b.ver.build) := by
    intro a b
    simp only [ModuleVersion.cmp, Version.cmp, semverPrecedence, orderingThenAssoc]
  refine ⟨key, ?_⟩
  intro a b h
  rw [key]
  cases hp : semverPrecedence a.ver b.ver
  · rfl
  · exact absurd hp h
  · rfl

/-- Witness for C9 at concrete inputs: `1.0.0-alpha` precedes `1.0.0` and
the comparison agrees with precedence there. -/
theorem moduleVersion_order_precedence_witness :
    ModuleVersion.cmp ⟨⟨1, 0, 0, "alpha".toList, []⟩⟩ ⟨⟨1, 0, 0, [], []⟩⟩ =
      semverPrecedence ⟨1, 0, 0, "alpha".toList, []⟩ ⟨1, 0, 0, [], []⟩ :=
  moduleVersion_order_precedence.2 ⟨⟨1, 0, 0, "alpha".toList, []⟩⟩ ⟨⟨1, 0, 0, [], []⟩⟩
    (by decide)

/-! # C3 — registry index mapping is all-or-nothing -/

theorem except_bind_error (e : ε) (g : α → Except ε β) :
    (Except.error e >>= g) = Except.error e := rfl

theorem except_bind_ok (a : α) (g : α → Except ε β) :
    (Except.ok a >>= g) = g a := rfl

theorem isOk_map (g : α → β) (x : Except ε α) : isOk (Except.map g x) = isOk x := by
  cases x <;> rfl

theorem isOk_bind_all (x : Except ε α) (f : α → Except ε β)
    (h : ∀ a, isOk (f a) = false) : isOk (x >>= f) = false := by
  cases x with
  | error e => rfl
  | ok a => rw [except_bind_ok]; exact h a

theorem collectResults_isOk_false {xs : List α} {f : α → Except ε β} {x : α}
    (hmem : x ∈ xs) (hx : isOk (f x) = false) : isOk (collectResults xs f) = false := by
  induction xs with
  | nil => cases hmem
  | cons y ys ih =>
    simp only [collectResults]
    rcases List.mem_cons.mp hmem with rfl | hmem'
    · cases hfx : f x with
      | error e => rfl
      | ok v => rw [hfx] at hx; simp [isOk] at hx
    · cases hfy : f y with
      | error e => rfl
      | ok v =>
        rw [except_bind_ok]
        exact isOk_bind_false _ _ (ih hmem')

theorem map_module_err_downloads (m : ApiRegistryModule) (h : m.downloads < 0) :
    isOk (map_registry_module m) = false := by
  have hdl : parse_u64 m.downloads "downloads" = .error "downloads must be non-negative" := by
    simp [parse_u64, h]
  simp only [map_registry_module, hdl]
  apply isOk_bind_all
  intro u
  cases m.version.join with
  | none =>
    apply isOk_bind_all
    intro v
    apply isOk_bind_all
    intro t
    rfl
  | some s =>
    apply isOk_bind_all
    intro v
    apply isOk_bind_all
    intro t
    rfl

theorem map_module_err_uuid (m : ApiRegistryModule)
    (h : isOk (parse_module_uuid m.uuid) = false) :
    isOk (map_registry_module m) = false := by
  simp only [map_registry_module]
  exact isOk_bind_false _ _ h

theorem map_module_err_version (m : ApiRegistryModule) (s : String)
    (hs : m.version.join = some s) (h : isOk (parse_module_version s) = false) :
    isOk (map_registry_module m) = false := by
  simp only [map_registry_module, hs]
  apply isOk_bind_all
  intro u
  apply isOk_bind_false
  rw [isOk_map]
  exact h

theorem map_module_err_timestamp (m : ApiRegistryModule)
    (h : isOk (parse_optional_timestamp m.last_updated.join) = false) :
    isOk (map_registry_module m) = false := by
  simp only [map_registry_module]
  apply isOk_bind_all
  intro u
  cases m.version.join with
  | none =>
    apply isOk_bind_all
    intro v
    exact isOk_bind_false _ _ h
  | some s =>
    apply isOk_bind_all
    intro v
    exact isOk_bind_false _ _ h

theorem map_registry_index_err_of_module {api : ApiRegistryIndex}
    {m : ApiRegistryModule} (hmem : m ∈ api.modules)
    (h : isOk (map_registry_module m) = false) :
    isOk (map_registry_index api) = false := by
  simp only [map_registry_index]
  exact isOk_bind_false _ _ (collectResults_isOk_false hmem h)

/-- C3: index mapping is all-or-nothing — if any single module entry of
the payload is malformed (negative `downloads`, invalid uuid, invalid
version string, or invalid timestamp), mapping the entire index fails; no
index with the bad entry dropped is returned. -/
theorem map_registry_index_all_or_nothing (api : ApiRegistryIndex)
    (m : ApiRegistryModule) (hmem : m ∈ api.modules)
    (hbad : m.downloads < 0 ∨ isOk (parse_module_uuid m.uuid) = false ∨
      (∃ s, m.version.join = some s ∧ isOk (parse_module_version s) = false) ∨
      isOk (parse_optional_timestamp m.last_updated.join) = false) :
    isOk (map_registry_index api) = false := by
  apply map_registry_index_err_of_module hmem
  rcases hbad with h | h | ⟨s, hs, h⟩ | h
  · exact map_module_err_downloads m h
  · exact map_module_err_uuid m h
  · exact map_module_err_version m s hs h
  · exact map_module_err_timestamp m h

/-- Witness for C3 at a concrete input: a payload whose single entry is
valid except for `downloads = -5` fails to map as a whole. -/
theorem map_registry_index_all_or_nothing_witness :
    isOk (map_registry_index badApiIndex) = false :=
  map_registry_index_all_or_nothing badApiIndex badApiModule (List.Mem.head _)
    (Or.inl (by decide))

/-! # JSON object and counting lemmas (for C5 and C6) -/

theorem lookupField_setField_self (k : String) (v : Json) (fs : List (String × Json)) :
    lookupField k (setField k v fs) = some v := by
  induction fs with
  | nil => simp [setField, lookupField]
  | cons p rest ih =>
    obtain ⟨k', v'⟩ := p
    by_cases h : k' = k
    · simp [setField, h, lookupField]
    · simp [setField, h, lookupField, ih]

theorem setField_setField (k : String) (v : Json) (fs : List (String × Json)) :
    setField k v (setField k v fs) = setField k v fs := by
  induction fs with
  | nil => simp [setField]
  | cons p rest ih =>
    obtain ⟨k', v'⟩ := p
    by_cases h : k' = k
    · simp [setField, h]
    · simp [setField, h, ih]

theorem lookupField_updateField_self (k : String) (f : Json → Json)
    (fs : List (String × Json)) :
    lookupField k (updateField k f fs) = (lookupField k fs).map f := by
  induction fs with
  | nil => simp [updateField, lookupField]
  | cons p rest ih =>
    obtain ⟨k', v'⟩ := p
    by_cases h : k' = k
    · simp [updateField, h, lookupField]
    · simp [updateField, h, lookupField, ih]

theorem lookupField_updateField_ne (k q : String) (hq : q ≠ k) (f : Json → Json)
    (fs : List (String × Json)) :
    lookupField q (updateField k f fs) = lookupField q fs := by
  induction fs with
  | nil => rfl
  | cons p rest ih =>
    obtain ⟨k', v'⟩ := p
    by_cases h : k' = k
    · have hne : ¬(k' = q) := by rw [h]; exact fun he => hq he.symm
      simp only [updateField, if_pos h, lookupField, if_neg hne]
    · simp only [updateField, if_neg h, lookupField, ih]

theorem eqStr_str_self (n : String) : Json.eqStr (.str n) n = true := by
  simp [Json.eqStr]

theorem countIn_append_self (xs : List Json) (n : String) :
    countIn (xs ++ [Json.str n]) n = countIn xs n + 1 := by
  simp [countIn, List.filter_append, Json.eqStr]

theorem countIn_pos_of_any (xs : List Json) (n : String)
    (h : xs.any (fun v => v.eqStr n) = true) : 1 ≤ countIn xs n := by
  induction xs with
  | nil => simp at h
  | cons v rest ih =>
    simp only [List.any_cons, Bool.or_eq_true] at h
    rcases h with h | h
    · simp [countIn, List.filter_cons, h]
    · have := ih h
      by_cases hv : Json.eqStr v n = true
      · simp [countIn, List.filter_cons, hv]
      · simp only [Bool.not_eq_true] at hv
        simpa [countIn, List.filter_cons, hv] using this

theorem countIn_eq_zero_of_any_false (xs : List Json) (n : String)
    (h : xs.any (fun v => v.eqStr n) = false) : countIn xs n = 0 := by
  simp only [countIn, List.length_eq_zero, List.filter_eq_nil]
  intro a ha
  have := List.any_eq_false.mp h a ha
  simp [this]

theorem filter_keep_of_countIn_zero (xs : List Json) (n : String)
    (h : countIn xs n = 0) : xs.filter (fun v => !(v.eqStr n)) = xs := by
  apply List.filter_eq_self.mpr
  intro a ha
  simp only [countIn, List.length_eq_zero, List.filter_eq_nil] at h
  simp [h a ha]

theorem countIn_filter_zero (xs : List Json) (n : String) :
    countIn (xs.filter fun v => !(v.eqStr n)) n = 0 := by
  simp only [countIn, List.length_eq_zero, List.filter_eq_nil]
  intro a ha
  have := List.of_mem_filter ha
  simpa using this

/-! # C5 — add_module idempotence and occurrence counts -/

/-- C5 counterexample: the claim says that after applying `add_module`
twice the id appears *exactly once* in the section array, for every
config; but on a config whose array already holds `"clock"` twice,
`add_module` is the identity (the containment check suppresses the push
without deduplicating), so after two applications the id still appears
twice. -/
theorem add_module_duplicate_counterexample :
    add_module (.obj dupFields) "clock" .Left = .ok (.obj dupFields) ∧
    sectionCount (.obj dupFields) "modules-left" "clock" = 2 := ⟨rfl, rfl⟩

/-- C5 (amended): `add_module` is idempotent — a second application with
the same module and section is a no-op; the section array is created when
absent; and the module id appears exactly once afterwards *provided* it
appeared at most once before (pre-existing duplicates are kept, not
collapsed; in every case the id appears at least once). -/
theorem add_module_idempotent :
    (∀ c c' n sec, add_module c n sec = .ok c' → add_module c' n sec = .ok c') ∧
    (∀ fields n sec c', add_module (.obj fields) n sec = .ok c' →
      1 ≤ sectionCount c' sec.array_key n ∧
      (sectionCount (.obj fields) sec.array_key n ≤ 1 →
        sectionCount c' sec.array_key n = 1)) ∧
    (∀ fields n sec, lookupField sec.array_key fields = none →
      add_module (.obj fields) n sec =
        .ok (.obj (setField sec.array_key (.arr [.str n]) fields))) := by
  refine ⟨?_, ?_, ?_⟩
  · intro c c' n sec h
    cases c with
    | obj fields =>
      simp only [add_module] at h
      cases hv : (lookupField sec.array_key fields).getD (.arr []) with
      | arr xs =>
        rw [hv] at h
        simp only [Except.ok.injEq] at h
        subst h
        have hany : (if xs.any (fun v => v.eqStr n) then xs
            else xs ++ [.str n]).any (fun v => v.eqStr n) = true := by
          by_cases hx : xs.any (fun v => v.eqStr n) = true
          · simp [hx]
          · simp only [Bool.not_eq_true] at hx
            simp [hx, List.any_append, eqStr_str_self]
        simp only [add_module, lookupField_setField_self, Option.getD_some, hany,
          if_true, setField_setField]
      | null => rw [hv] at h; simp at h
      | bool b => rw [hv] at h; simp at h
      | num m => rw [hv] at h; simp at h
      | str s => rw [hv] at h; simp at h
      | obj fs => rw [hv] at h; simp at h
    | null => simp [add_module] at h
    | bool b => simp [add_module] at h
    | num m => simp [add_module] at h
    | str s => simp [add_module] at h
    | arr xs => simp [add_module] at h
  · intro fields n sec c' h
    simp only [add_module] at h
    cases hlk : lookupField sec.array_key fields with
    | none =>
      rw [hlk] at h
      simp only [Option.getD_none, List.any_nil, if_false, List.nil_append,
        Except.ok.injEq] at h
      subst h
      constructor
      · simp [sectionCount, lookupField_setField_self, countIn, List.filter_cons,
          eqStr_str_self]
      · intro _
        simp [sectionCount, lookupField_setField_self, countIn, List.filter_cons,
          eqStr_str_self]
    | some v =>
      rw [hlk] at h
      cases v with
      | arr xs =>
        simp only [Option.getD_some, Except.ok.injEq] at h
        subst h
        by_cases hx : xs.any (fun v => v.eqStr n) = true
        · simp only [hx, if_true]
          constructor
          · simpa [sectionCount, lookupField_setField_self]
              using countIn_pos_of_any xs n hx
          · intro hle
            simp only [sectionCount, hlk] at hle
            have h1 := countIn_pos_of_any xs n hx
            simp [sectionCount, lookupField_setField_self]
            exact le_antisymm hle h1
        · simp only [Bool.not_eq_true] at hx
          simp only [hx, Bool.false_eq_true, if_false]
          have hz := countIn_eq_zero_of_any_false xs n hx
          constructor
          · simp [sectionCount, lookupField_setField_self, countIn_append_self, hz]
          · intro _
            simp [sectionCount, lookupField_setField_self, countIn_append_self, hz]
      | null => simp at h
      | bool b => simp at h
      | num m => simp at h
      | str s => simp at h
      | obj fs => simp at h
  · intro fields n sec h
    simp [add_module, h]

/-- Witness for C5 at the spec §8 sample config: a second add of
`custom/weather` to the left section is a no-op, the count afterwards is
exactly one, and adding into a config without the array creates it. -/
theorem add_module_idempotent_witness :
    add_module (.obj sampleAddedFields) "custom/weather" .Left =
      .ok (.obj sampleAddedFields) ∧
    (1 ≤ sectionCount (.obj sampleAddedFields) "modules-left" "custom/weather" ∧
      (sectionCount (.obj sampleFields) "modules-left" "custom/weather" ≤ 1 →
        sectionCount (.obj sampleAddedFields) "modules-left" "custom/weather" = 1)) ∧
    add_module (.obj [("layer", .str "top")]) "custom/test" .Left =
      .ok (.obj (setField "modules-left" (.arr [.str "custom/test"])
        [("layer", .str "top")])) :=
  ⟨add_module_idempotent.1 (.obj sampleFields) (.obj sampleAddedFields)
      "custom/weather" .Left rfl,
   add_module_idempotent.2.1 sampleFields "custom/weather" .Left
      (.obj sampleAddedFields) rfl,
   add_module_idempotent.2.2 [("layer", .str "top")] "custom/test" .Left rfl⟩

/-! # C6 — remove_module removes from all sections and nothing else -/

theorem removeFields_eq (n : String) (fields : List (String × Json)) :
    removeFields n fields =
      updateField "modules-right" (removeRetain n)
        (updateField "modules-center" (removeRetain n)
          (updateField "modules-left" (removeRetain n) fields)) := rfl

theorem lookupField_removeFields (n : String) (fields : List (String × Json))
    (k : String) (hk : k ∈ sectionKeys) :
    lookupField k (removeFields n fields) =
      (lookupField k fields).map (removeRetain n) := by
  simp only [sectionKeys, List.mem_cons, List.mem_singleton, List.not_mem_nil,
    or_false] at hk
  rw [removeFields_eq]
  rcases hk with rfl | rfl | rfl
  · rw [lookupField_updateField_ne _ _ (by decide), lookupField_updateField_ne _ _ (by decide),
      lookupField_updateField_self]
  · rw [lookupField_updateField_ne _ _ (by decide), lookupField_updateField_self,
      lookupField_updateField_ne _ _ (by decide)]
  · rw [lookupField_updateField_self, lookupField_updateField_ne _ _ (by decide),
      lookupField_updateField_ne _ _ (by decide)]

/-- C6: `remove_module` filters every occurrence of the id out of each of
the three section arrays (preserving the order and values of the other
entries), leaves every other field — and any non-array section value —
unchanged, and is a no-op on arrays that do not contain the id. -/
theorem remove_module_all_sections (fields : List (String × Json)) (n : String) :
    remove_module (.obj fields) n = .ok (.obj (removeFields n fields)) ∧
    (∀ k xs, k ∈ sectionKeys → lookupField k fields = some (.arr xs) →
      lookupField k (removeFields n fields) =
        some (.arr (xs.filter fun v => !(v.eqStr n)))) ∧
    (∀ k, k ∈ sectionKeys → sectionCount (.obj (removeFields n fields)) k n = 0) ∧
    (∀ k, k ∉ sectionKeys → lookupField k (removeFields n fields) = lookupField k fields) ∧
    (∀ k v, k ∈ sectionKeys → lookupField k fields = some v → (∀ xs, v ≠ .arr xs) →
      lookupField k (removeFields n fields) = some v) ∧
    (∀ k xs, k ∈ sectionKeys → lookupField k fields = some (.arr xs) → countIn xs n = 0 →
      lookupField k (removeFields n fields) = some (.arr xs)) := by
  refine ⟨rfl, ?_, ?_, ?_, ?_, ?_⟩
  · intro k xs hk hlk
    rw [lookupField_removeFields n fields k hk, hlk]
    rfl
  · intro k hk
    simp only [sectionCount]
    rw [lookupField_removeFields n fields k hk]
    cases hlk : lookupField k fields with
    | none => rfl
    | some v =>
      cases v with
      | arr xs =>
        simp only [Option.map_some', removeRetain]
        exact countIn_filter_zero xs n
      | null => rfl
      | bool b => rfl
      | num m => rfl
      | str s => rfl
      | obj fs => rfl
  · intro k hk
    simp only [sectionKeys, List.mem_cons, List.mem_singleton, List.not_mem_nil,
      or_false, not_or] at hk
    obtain ⟨h1, h2, h3⟩ := hk
    rw [removeFields_eq, lookupField_updateField_ne _ _ h3,
      lookupField_updateField_ne _ _ h2, lookupField_updateField_ne _ _ h1]
  · intro k v hk hlk hnotarr
    rw [lookupField_removeFields n fields k hk, hlk]
    cases v with
    | arr xs => exact absurd rfl (hnotarr xs)
    | null => rfl
    | bool b => rfl
    | num m => rfl
    | str s => rfl
    | obj fs => rfl
  · intro k xs hk hlk hz
    rw [lookupField_removeFields n fields k hk, hlk]
    simp only [Option.map_some', removeRetain, filter_keep_of_countIn_zero xs n hz]

/-- Witness for C6 at the spec §8 sample config: removing `"clock"`
empties `modules-center`, leaves the untouched sections' arrays exactly as
they were, and leaves a non-section field alone. -/
theorem remove_module_all_sections_witness :
    remove_module (.obj sampleFields) "clock" =
      .ok (.obj (removeFields "clock" sampleFields)) ∧
    lookupField "modules-center" (removeFields "clock" sampleFields) =
      some (.arr ([Json.str "clock"].filter fun v => !(v.eqStr "clock"))) ∧
    lookupField "modules-left" (removeFields "clock" sampleFields) =
      some (.arr [.str "sway/workspaces"]) ∧
    lookupField "modules-right" (removeFields "clock" sampleFields) =
      some (.arr [.str "battery", .str "network"]) ∧
    lookupField "layer" (removeFields "clock" sampleFields) =
      lookupField "layer" sampleFields :=
  ⟨(remove_module_all_sections sampleFields "clock").1,
   (remove_module_all_sections sampleFields "clock").2.1 "modules-center"
      [.str "clock"] (by decide) rfl,
   (remove_module_all_sections sampleFields "clock").2.2.2.2.2 "modules-left"
      [.str "sway/workspaces"] (by decide) rfl (by decide),
   (remove_module_all_sections sampleFields "clock").2.2.2.2.2 "modules-right"
      [.str "battery", .str "network"] (by decide) rfl (by decide),
   (remove_module_all_sections sampleFields "clock").2.2.2.1 "layer" (by decide)⟩

end Barforge
